import Mathlib

/-!
Verification of the cosignerd signing daemon (darosior/cosignerd) against its
natural-language specification.

The source under scrutiny is `src/bin/cosignerd.rs`: argument parsing
(`parse_args`), and the daemon accept loop (`daemon_main`) which binds a TCP
listener, then sequentially accepts connections, runs the Noise KK handshake,
reads one message, decodes it as a `Sign` message, and then reaches the
placeholder `// TODO: process sign message`.  The authorization/signing core
(Request Validator, Authorization Ledger, Signer, response writing) is that
placeholder: it is repository code not present under `src/`, so those parts are
modelled from the specification (sections 4.1 to 4.3), as the individual doc
comments state.  Everything else (the error paths of the accept loop, argument
parsing, the fatal bind failure) is embedded directly from the Rust source.
-/

namespace Cosignerd

/-- An unvaulted-output identifier: a transaction id plus output index
(spec section 3, `UnvaultedOutputRef`; `OutPoint {txid, vout}` on the wire).
Transaction ids are abstracted as natural numbers. -/
structure OutputRef where
  txid : Nat
  vout : Nat
deriving DecidableEq, Repr

/-- A decoded sign request (spec section 3, `SignRequest`; the decoded
`Sign` message of `cosignerd.rs` line 90): a candidate spending transaction,
abstracted by its digest, plus the list of unvaulted outputs it consumes. -/
structure SignRequest where
  tx_digest : Nat
  spent_outputs : List OutputRef
deriving DecidableEq, Repr

/-- The persisted ledger unit (spec section 3, `AuthorizationRecord`):
which output has been committed to which exact transaction digest, and when. -/
structure AuthorizationRecord where
  output_ref : OutputRef
  committed_transaction_digest : Nat
  created_at : Nat
deriving DecidableEq, Repr

/-- The Authorization Ledger: the records committed so far, in commit order.
Records are never mutated and never deleted (spec section 3), so the ledger
only grows by appending. -/
abbrev Ledger := List AuthorizationRecord

/-- Ledger lookup (spec section 4.1, `lookup(output_ref)`): the record bound
to a given output reference, if any. -/
def lookup (l : Ledger) (o : OutputRef) : Option AuthorizationRecord :=
  l.find? (fun r => decide (r.output_ref = o))

/-- Whether the ledger already binds output `o` to exactly digest `d`. -/
def committedTo (l : Ledger) (o : OutputRef) (d : Nat) : Bool :=
  (lookup l o).any (fun r => decide (r.committed_transaction_digest = d))

/-- Rejection reasons reported to the caller (spec section 6 response shape). -/
inductive RejectionReason where
  | conflict
deriving DecidableEq, Repr

/-- The single response written back to the peer: a signature on approval, or
a rejection reason (spec section 6 response shape). -/
inductive Response where
  | signature (s : Nat)
  | rejection (reason : RejectionReason)
deriving DecidableEq, Repr

/-- Modelled from the spec: the Signer primitive of section 4.3, a
deterministic signature over the transaction digest with the custodied key.
The concrete formula is an abstract stand-in for the cryptographic operation;
all that the development uses is that it is a deterministic function of the
key and the digest. -/
def sign_tx (key digest : Nat) : Nat :=
  key * 2 ^ 256 + digest

/-- The mutable core state: the Authorization Ledger plus a counter of signing
operations performed (used to express that replays and rejections perform no
new signing operation, spec sections 4.2 and 4.3). -/
structure CoreState where
  ledger : Ledger
  signOps : Nat
deriving DecidableEq, Repr

/-- The state at daemon startup: empty ledger, no signing operation yet. -/
def initState : CoreState :=
  { ledger := [], signOps := 0 }

/-- The record created when output `o` is newly bound to digest `d` at time
`now` (spec section 3: created by the Request Validator at approval time). -/
def mkRecord (d now : Nat) (o : OutputRef) : AuthorizationRecord :=
  { output_ref := o, committed_transaction_digest := d, created_at := now }

/-- Modelled from the spec: the Sign-Request Authorization Core, i.e. the
`// TODO: process sign message` placeholder at `src/bin/cosignerd.rs` line
100, filled in with the algorithm of spec section 4.2 (Request Validator)
driving section 4.1 (Ledger commit) and section 4.3 (Signer):

- if none of the referenced outputs has a record, commit all of them
  atomically to this request digest and sign (`Approve`);
- if all referenced outputs already point to a digest equal to this request
  digest, return the previously-issued signature without a new signing
  operation (`ApproveReplay`; the Signer is deterministic per section 4.3, so
  that signature is `sign_tx key req.tx_digest`);
- otherwise reject with `Conflict` and leave the ledger untouched. -/
def processSign (key now : Nat) (st : CoreState) (req : SignRequest) :
    Response × CoreState :=
  if req.spent_outputs.all (fun o => (lookup st.ledger o).isNone) then
    (Response.signature (sign_tx key req.tx_digest),
      { ledger := st.ledger ++ req.spent_outputs.map (mkRecord req.tx_digest now),
        signOps := st.signOps + 1 })
  else if req.spent_outputs.all (fun o => committedTo st.ledger o req.tx_digest) then
    (Response.signature (sign_tx key req.tx_digest), st)
  else
    (Response.rejection RejectionReason.conflict, st)

/-- Processing a whole sequence of sign requests, each with its arrival
timestamp, from a given state. -/
def processAll (key : Nat) (reqs : List (SignRequest × Nat)) (st : CoreState) :
    CoreState :=
  reqs.foldl (fun s p => (processSign key p.2 s p.1).2) st

/-- The at-most-once property of a ledger: any two records for the same
output reference carry the same committed transaction digest. -/
def ledgerConsistent (l : Ledger) : Prop :=
  ∀ r1 ∈ l, ∀ r2 ∈ l, r1.output_ref = r2.output_ref →
    r1.committed_transaction_digest = r2.committed_transaction_digest

/-- Log levels used by the log statements of `daemon_main`. -/
inductive LogLevel where
  | error
  | debug
  | trace
deriving DecidableEq, Repr

/-- Observable per-connection events of the Session Server: a log statement
(level plus a tag naming the source log line), one read performed on the
stream, one response written back to the peer, and the connection closing. -/
inductive SessionEvent where
  | logged (lv : LogLevel) (tag : String)
  | readAttempt
  | wrote (r : Response)
  | connClosed
deriving DecidableEq, Repr

/-- Whether an event is a response write. -/
def isWriteEvent : SessionEvent → Bool
  | SessionEvent.wrote _ => true
  | _ => false

/-- Whether an event is a message read on the stream. -/
def isReadEvent : SessionEvent → Bool
  | SessionEvent.readAttempt => true
  | _ => false

/-- One inbound connection attempt, as the environment presents it to the
accept loop of `daemon_main` (src/bin/cosignerd.rs lines 59 to 97): the
outcome of `listener.incoming()` for this iteration, of the Noise KK
handshake (`KKTransport::accept` against the managers allow-list), of
`kk_stream.read()`, and of decoding the read bytes as a `Sign` message
(`serde_json::from_slice`).  Handshake, stream and codec are external
collaborators (spec section 6), so their outcomes are inputs of the model
rather than recomputed functions. -/
structure Connection where
  accepted : Except String Unit
  handshake : Except String Unit
  readBytes : Except String Unit
  decoded : Except String SignRequest
deriving Repr

/-- One iteration of the accept loop of `daemon_main`
(src/bin/cosignerd.rs lines 59 to 101), embedded from the source: the trace
log of the incoming result (which logs the accept error too, since the line
formats the whole `Result`), then the cascade of early `continue`s on accept
error, handshake error, read error and decode error, each with the log
statement the source emits; a successfully decoded request reaches the
processing placeholder of line 100, which is the spec-modelled `processSign`
followed by writing the single response back over the same channel (spec
sections 4.4 and 6) and closing the connection.  Returns the core state
after the connection and the ordered list of this connection's events. -/
def handleConn (key now : Nat) (st : CoreState) (c : Connection) :
    CoreState × List SessionEvent :=
  let tr0 := [SessionEvent.logged LogLevel.trace "got a new connection"]
  match c.accepted with
  | Except.error _ => (st, tr0)
  | Except.ok _ =>
    match c.handshake with
    | Except.error _ =>
      (st, tr0 ++ [SessionEvent.logged LogLevel.error "error during handshake",
        SessionEvent.connClosed])
    | Except.ok _ =>
      match c.readBytes with
      | Except.error _ =>
        (st, tr0 ++ [SessionEvent.readAttempt,
          SessionEvent.logged LogLevel.error "error reading from stream",
          SessionEvent.connClosed])
      | Except.ok _ =>
        let tr1 := tr0 ++ [SessionEvent.readAttempt,
          SessionEvent.logged LogLevel.debug "got message from peer"]
        match c.decoded with
        | Except.error _ =>
          (st, tr1 ++ [SessionEvent.logged LogLevel.error "decoding sign message",
            SessionEvent.connClosed])
        | Except.ok req =>
          let out := processSign key now st req
          (out.2, tr1 ++ [SessionEvent.logged LogLevel.trace "decoded",
            SessionEvent.wrote out.1, SessionEvent.connClosed])

/-- The accept loop of `daemon_main` (src/bin/cosignerd.rs line 59): the
source treats incoming connections strictly sequentially, each handled
completely by one loop iteration before the next is considered, and no error
aborts the loop.  Returns the final core state and the per-connection event
blocks, in arrival order; each connection comes with its arrival time. -/
def daemonRun (key : Nat) (st : CoreState) :
    List (Connection × Nat) → CoreState × List (List SessionEvent)
  | [] => (st, [])
  | c :: rest =>
    let out := handleConn key c.2 st c.1
    let next := daemonRun key out.1 rest
    (next.1, out.2 :: next.2)

/-- Tag each event block of a run with its connection index, starting at
`i`, and flatten. -/
def tagBlocks (i : Nat) : List (List SessionEvent) → List (Nat × SessionEvent)
  | [] => []
  | b :: bs => b.map (fun e => (i, e)) ++ tagBlocks (i + 1) bs

/-- The flat event trace of a daemon run, each event tagged with the index
of the connection it belongs to. -/
def daemonTrace (key : Nat) (st : CoreState) (cs : List (Connection × Nat)) :
    List (Nat × SessionEvent) :=
  tagBlocks 0 (daemonRun key st cs).2

/-- Outcome of `daemon_main`: either the whole process exits with a code
after emitting the given log events (the bind failure path of
src/bin/cosignerd.rs lines 50 to 53), or the accept loop runs over the
supplied connections. -/
inductive DaemonOutcome where
  | exited (code : Nat) (events : List SessionEvent)
  | ran (final : CoreState) (blocks : List (List SessionEvent))
deriving Repr

/-- daemon_main (src/bin/cosignerd.rs lines 48 to 102), embedded from the
source: a `TcpListener::bind` failure logs the error and exits the whole
process with code 1 before any connection is handled, with no retry; a
successful bind enters the sequential accept loop. -/
def daemon_main (key : Nat) (bindResult : Except String Unit) (st : CoreState)
    (cs : List (Connection × Nat)) : DaemonOutcome :=
  match bindResult with
  | Except.error _ =>
    DaemonOutcome.exited 1 [SessionEvent.logged LogLevel.error "error binding"]
  | Except.ok _ =>
    DaemonOutcome.ran (daemonRun key st cs).1 (daemonRun key st cs).2

/-- Result of `parse_args` (src/bin/cosignerd.rs lines 6 to 18): no
configuration path (`None`), a configuration path (`Some(PathBuf)`), or a
process exit with the given code after printing the given number of stderr
lines. -/
inductive ParseResult where
  | noConf
  | conf (path : String)
  | exited (code : Nat) (stderrLines : Nat)
deriving DecidableEq, Repr

/-- parse_args, embedded from src/bin/cosignerd.rs lines 6 to 18: a length-1
argument vector yields no configuration path; any other length that is not 3
prints two error lines (`eprintln!` twice) and exits the process with code
1; a length-3 vector yields the third argument (`args[2]`) as the path, the
flag `args[1]` never being inspected. -/
def parse_args (args : List String) : ParseResult :=
  if args.length = 1 then ParseResult.noConf
  else if args.length ≠ 3 then ParseResult.exited 1 2
  else ParseResult.conf (args.getD 2 "")

/-! Helper lemmas about the Authorization Ledger. -/

theorem lookup_append (l1 l2 : Ledger) (o : OutputRef) :
    lookup (l1 ++ l2) o = (lookup l1 o).or (lookup l2 o) :=
  List.find?_append

theorem lookup_eq_none_iff {l : Ledger} {o : OutputRef} :
    lookup l o = none ↔ ∀ r ∈ l, r.output_ref ≠ o := by
  simp [lookup, List.find?_eq_none]

theorem lookup_map_mkRecord {d now : Nat} {os : List OutputRef} {o : OutputRef}
    (ho : o ∈ os) :
    ∃ r, lookup (os.map (mkRecord d now)) o = some r ∧
      r.output_ref = o ∧ r.committed_transaction_digest = d := by
  have hs : (lookup (os.map (mkRecord d now)) o).isSome := by
    rw [lookup, List.find?_isSome]
    exact ⟨mkRecord d now o, List.mem_map_of_mem _ ho, by simp [mkRecord]⟩
  obtain ⟨r, hr⟩ := Option.isSome_iff_exists.mp hs
  have hp := List.find?_some hr
  have hm := List.mem_of_find?_eq_some hr
  obtain ⟨o2, _, hre⟩ := List.mem_map.mp hm
  refine ⟨r, hr, by simpa using hp, ?_⟩
  rw [← hre]
  rfl

theorem committedTo_eq_true {l : Ledger} {o : OutputRef} {d : Nat} :
    committedTo l o d = true ↔
      ∃ r, lookup l o = some r ∧ r.committed_transaction_digest = d := by
  cases hl : lookup l o with
  | none => simp [committedTo, hl]
  | some r => simp [committedTo, hl]

/-! Branch characterizations of the spec-modelled core. -/

theorem processSign_approve {key now : Nat} {st : CoreState} {req : SignRequest}
    (h : ∀ o ∈ req.spent_outputs, lookup st.ledger o = none) :
    processSign key now st req =
      (Response.signature (sign_tx key req.tx_digest),
        { ledger := st.ledger ++ req.spent_outputs.map (mkRecord req.tx_digest now),
          signOps := st.signOps + 1 }) := by
  have hg : (req.spent_outputs.all fun o => (lookup st.ledger o).isNone) = true := by
    rw [List.all_eq_true]
    intro o hoin
    simp [h o hoin]
  unfold processSign
  rw [if_pos hg]

theorem processSign_replay {key now : Nat} {st : CoreState} {req : SignRequest}
    (hne : req.spent_outputs ≠ [])
    (hall : ∀ o ∈ req.spent_outputs, committedTo st.ledger o req.tx_digest = true) :
    processSign key now st req =
      (Response.signature (sign_tx key req.tx_digest), st) := by
  obtain ⟨o0, ho0⟩ := List.exists_mem_of_ne_nil _ hne
  obtain ⟨r0, hr0, -⟩ := committedTo_eq_true.mp (hall o0 ho0)
  have hg1 : (req.spent_outputs.all fun o => (lookup st.ledger o).isNone) = false := by
    rw [List.all_eq_false]
    exact ⟨o0, ho0, by simp [hr0]⟩
  have hg2 : (req.spent_outputs.all fun o => committedTo st.ledger o req.tx_digest) = true :=
    List.all_eq_true.mpr hall
  unfold processSign
  rw [if_neg (by simp [hg1]), if_pos hg2]

theorem processSign_conflict {key now : Nat} {st : CoreState} {req : SignRequest}
    {o : OutputRef} {r : AuthorizationRecord}
    (hmem : o ∈ req.spent_outputs)
    (hbound : lookup st.ledger o = some r)
    (hdiff : r.committed_transaction_digest ≠ req.tx_digest) :
    processSign key now st req =
      (Response.rejection RejectionReason.conflict, st) := by
  have hg1 : (req.spent_outputs.all fun o => (lookup st.ledger o).isNone) = false := by
    rw [List.all_eq_false]
    exact ⟨o, hmem, by simp [hbound]⟩
  have hg2 : (req.spent_outputs.all fun o => committedTo st.ledger o req.tx_digest) = false := by
    rw [List.all_eq_false]
    exact ⟨o, hmem, by simp [committedTo, hbound, hdiff]⟩
  unfold processSign
  rw [if_neg (by simp [hg1]), if_neg (by simp [hg2])]

theorem processSign_consistent (key now : Nat) (st : CoreState) (req : SignRequest)
    (h : ledgerConsistent st.ledger) :
    ledgerConsistent (processSign key now st req).2.ledger := by
  unfold processSign
  split
  case isTrue hg =>
    dsimp only
    have hnone : ∀ o ∈ req.spent_outputs, lookup st.ledger o = none := by
      intro o hoin
      simpa using List.all_eq_true.mp hg o hoin
    intro r1 h1 r2 h2 ho
    rcases List.mem_append.mp h1 with h1l | h1r
    · rcases List.mem_append.mp h2 with h2l | h2r
      · exact h r1 h1l r2 h2l ho
      · obtain ⟨o2, ho2, rfl⟩ := List.mem_map.mp h2r
        have hne := lookup_eq_none_iff.mp (hnone o2 ho2) r1 h1l
        simp only [mkRecord] at ho
        exact absurd ho hne
    · obtain ⟨o1, ho1, rfl⟩ := List.mem_map.mp h1r
      rcases List.mem_append.mp h2 with h2l | h2r
      · have hne := lookup_eq_none_iff.mp (hnone o1 ho1) r2 h2l
        simp only [mkRecord] at ho
        exact absurd ho.symm hne
      · obtain ⟨o2, ho2, rfl⟩ := List.mem_map.mp h2r
        rfl
  case isFalse =>
    split
    · exact h
    · exact h

theorem processSign_ledger_extend (key now : Nat) (st : CoreState) (req : SignRequest) :
    ∃ ext, (processSign key now st req).2.ledger = st.ledger ++ ext := by
  unfold processSign
  split
  · exact ⟨_, rfl⟩
  · split
    · exact ⟨[], (List.append_nil _).symm⟩
    · exact ⟨[], (List.append_nil _).symm⟩

theorem processAll_cons (key : Nat) (p : SignRequest × Nat)
    (rest : List (SignRequest × Nat)) (st : CoreState) :
    processAll key (p :: rest) st =
      processAll key rest (processSign key p.2 st p.1).2 := rfl

theorem processAll_ledger_extend (key : Nat) (reqs : List (SignRequest × Nat))
    (st : CoreState) :
    ∃ ext, (processAll key reqs st).ledger = st.ledger ++ ext := by
  induction reqs generalizing st with
  | nil => exact ⟨[], (List.append_nil _).symm⟩
  | cons p rest ih =>
    obtain ⟨e1, h1⟩ := processSign_ledger_extend key p.2 st p.1
    obtain ⟨e2, h2⟩ := ih (processSign key p.2 st p.1).2
    refine ⟨e1 ++ e2, ?_⟩
    rw [processAll_cons, h2, h1, List.append_assoc]

theorem processAll_consistent (key : Nat) (reqs : List (SignRequest × Nat))
    (st : CoreState) (h : ledgerConsistent st.ledger) :
    ledgerConsistent (processAll key reqs st).ledger := by
  induction reqs generalizing st with
  | nil => exact h
  | cons p rest ih =>
    rw [processAll_cons]
    exact ih _ (processSign_consistent key p.2 st p.1 h)

/-- C1: at-most-once signing invariant.  For every unvaulted output
reference, across every sequence of processed sign requests (observed at any
two points of the run, here after `reqs` and after `reqs ++ more`), at most
one committed transaction digest is ever recorded for that output: any two
authorization records for the same output reference carry the same
transaction digest, for the lifetime of the system started from the empty
ledger. -/
theorem at_most_once_signing (key : Nat) (reqs more : List (SignRequest × Nat))
    (r1 r2 : AuthorizationRecord)
    (h1 : r1 ∈ (processAll key reqs initState).ledger)
    (h2 : r2 ∈ (processAll key (reqs ++ more) initState).ledger)
    (ho : r1.output_ref = r2.output_ref) :
    r1.committed_transaction_digest = r2.committed_transaction_digest := by
  have hsplit : processAll key (reqs ++ more) initState
      = processAll key more (processAll key reqs initState) := by
    simp [processAll, List.foldl_append]
  obtain ⟨ext, hext⟩ := processAll_ledger_extend key more (processAll key reqs initState)
  have h1f : r1 ∈ (processAll key (reqs ++ more) initState).ledger := by
    rw [hsplit, hext]
    exact List.mem_append_left _ h1
  have hco := processAll_consistent key (reqs ++ more) initState
    (fun r hr => absurd hr (List.not_mem_nil r))
  exact hco r1 h1f r2 h2 ho

/-- Witness for C1 at a concrete run: first request binds output (1,0) to
digest 10, a later conflicting request for digest 20 is rejected, and the
two observed records for (1,0) agree. -/
theorem at_most_once_signing_witness :
    (⟨⟨1, 0⟩, 10, 0⟩ : AuthorizationRecord).committed_transaction_digest =
      (⟨⟨1, 0⟩, 10, 0⟩ : AuthorizationRecord).committed_transaction_digest :=
  at_most_once_signing 5 [(⟨10, [⟨1, 0⟩]⟩, 0)] [(⟨20, [⟨1, 0⟩]⟩, 1)]
    ⟨⟨1, 0⟩, 10, 0⟩ ⟨⟨1, 0⟩, 10, 0⟩ (by decide) (by decide) rfl

/-- C2: idempotent replay.  If processing a request (whose output list is
nonempty) yielded a signature, then processing the identical request a
second time, at any later timestamp, returns the identical previously-issued
signature and leaves the state byte-for-byte unchanged: the ledger gets no
new record, and `signOps` is unchanged, so no new signing operation is
performed.  The hypothesis of the claim (all referenced outputs already
committed to this request's digest) is exactly the state after the first
processing. -/
theorem idempotent_replay (key now1 now2 : Nat) (st : CoreState)
    (req : SignRequest) (s : Nat) (st1 : CoreState)
    (hne : req.spent_outputs ≠ [])
    (h : processSign key now1 st req = (Response.signature s, st1)) :
    processSign key now2 st1 req = (Response.signature s, st1) := by
  unfold processSign at h
  split at h
  case isTrue hg =>
    rw [Prod.mk.injEq] at h
    obtain ⟨hs, hst⟩ := h
    injection hs with hs
    subst hs
    subst hst
    have hnone : ∀ o ∈ req.spent_outputs, lookup st.ledger o = none := by
      intro o hoin
      simpa using List.all_eq_true.mp hg o hoin
    refine processSign_replay hne ?_
    intro o hoin
    obtain ⟨r, hrl, -, hrd⟩ :=
      @lookup_map_mkRecord req.tx_digest now1 req.spent_outputs o hoin
    rw [committedTo_eq_true]
    refine ⟨r, ?_, hrd⟩
    show lookup (st.ledger ++ req.spent_outputs.map (mkRecord req.tx_digest now1)) o = some r
    rw [lookup_append, hnone o hoin, Option.none_or]
    exact hrl
  case isFalse hg =>
    split at h
    case isTrue hg2 =>
      rw [Prod.mk.injEq] at h
      obtain ⟨hs, hst⟩ := h
      injection hs with hs
      subst hs
      subst hst
      exact processSign_replay hne (List.all_eq_true.mp hg2)
    case isFalse hg2 =>
      simp at h

/-- Witness for C2: the request binding output (1,0) to digest 10 is
approved once from the empty state, and its replay returns the same
signature with the state unchanged. -/
theorem idempotent_replay_witness :
    processSign 5 1 (processSign 5 0 initState ⟨10, [⟨1, 0⟩]⟩).2 ⟨10, [⟨1, 0⟩]⟩ =
      (Response.signature (sign_tx 5 10), (processSign 5 0 initState ⟨10, [⟨1, 0⟩]⟩).2) :=
  idempotent_replay 5 0 1 initState ⟨10, [⟨1, 0⟩]⟩ (sign_tx 5 10)
    (processSign 5 0 initState ⟨10, [⟨1, 0⟩]⟩).2 (by decide) (by rfl)

/-- C3: conflict rejection with ledger unchanged.  If some output referenced
by the request is already bound to a record whose digest differs from the
request's digest, the request is rejected with `Conflict`, the whole state
is unchanged (in particular `signOps`, so no signature is produced), and the
stored record for that output still is the original one afterwards. -/
theorem conflict_rejection (key now : Nat) (st : CoreState) (req : SignRequest)
    (o : OutputRef) (r : AuthorizationRecord)
    (hmem : o ∈ req.spent_outputs)
    (hbound : lookup st.ledger o = some r)
    (hdiff : r.committed_transaction_digest ≠ req.tx_digest) :
    processSign key now st req = (Response.rejection RejectionReason.conflict, st) ∧
      lookup (processSign key now st req).2.ledger o = some r ∧
      (processSign key now st req).2.signOps = st.signOps := by
  have hp := @processSign_conflict key now st req o r hmem hbound hdiff
  refine ⟨hp, ?_, ?_⟩
  · rw [hp]
    exact hbound
  · rw [hp]

/-- Witness for C3: output (1,0) is bound to digest 10; a request proposing
digest 20 for it is rejected and the record still maps to 10. -/
theorem conflict_rejection_witness :
    processSign 5 1 ⟨[⟨⟨1, 0⟩, 10, 0⟩], 1⟩ ⟨20, [⟨1, 0⟩]⟩ =
        (Response.rejection RejectionReason.conflict, ⟨[⟨⟨1, 0⟩, 10, 0⟩], 1⟩) ∧
      lookup (processSign 5 1 ⟨[⟨⟨1, 0⟩, 10, 0⟩], 1⟩ ⟨20, [⟨1, 0⟩]⟩).2.ledger ⟨1, 0⟩ =
        some ⟨⟨1, 0⟩, 10, 0⟩ ∧
      (processSign 5 1 ⟨[⟨⟨1, 0⟩, 10, 0⟩], 1⟩ ⟨20, [⟨1, 0⟩]⟩).2.signOps = 1 :=
  conflict_rejection 5 1 ⟨[⟨⟨1, 0⟩, 10, 0⟩], 1⟩ ⟨20, [⟨1, 0⟩]⟩ ⟨1, 0⟩ ⟨⟨1, 0⟩, 10, 0⟩
    (by decide) (by decide) (by decide)

/-- C4: atomic multi-output commit.  A request spending several outputs,
one of which is already bound to a different transaction, is rejected with
`Conflict` and the whole state is returned unchanged: in particular no new
record is created for any other, still-free, referenced output.  The commit
is thereby all-or-nothing. -/
theorem atomic_multi_output_commit (key now : Nat) (st : CoreState)
    (req : SignRequest) (o1 o2 : OutputRef) (r : AuthorizationRecord)
    (h1 : o1 ∈ req.spent_outputs) (_h2 : o2 ∈ req.spent_outputs)
    (hbound : lookup st.ledger o1 = some r)
    (hdiff : r.committed_transaction_digest ≠ req.tx_digest)
    (hfree : lookup st.ledger o2 = none) :
    processSign key now st req = (Response.rejection RejectionReason.conflict, st) ∧
      lookup (processSign key now st req).2.ledger o2 = none := by
  have hp := @processSign_conflict key now st req o1 r h1 hbound hdiff
  refine ⟨hp, ?_⟩
  rw [hp]
  exact hfree

/-- Witness for C4: a request spending the bound output (1,0) (bound to
digest 10) and the free output (2,0), proposing digest 20, is rejected and
(2,0) stays free. -/
theorem atomic_multi_output_commit_witness :
    processSign 5 1 ⟨[⟨⟨1, 0⟩, 10, 0⟩], 1⟩ ⟨20, [⟨1, 0⟩, ⟨2, 0⟩]⟩ =
        (Response.rejection RejectionReason.conflict, ⟨[⟨⟨1, 0⟩, 10, 0⟩], 1⟩) ∧
      lookup (processSign 5 1 ⟨[⟨⟨1, 0⟩, 10, 0⟩], 1⟩ ⟨20, [⟨1, 0⟩, ⟨2, 0⟩]⟩).2.ledger
        ⟨2, 0⟩ = none :=
  atomic_multi_output_commit 5 1 ⟨[⟨⟨1, 0⟩, 10, 0⟩], 1⟩ ⟨20, [⟨1, 0⟩, ⟨2, 0⟩]⟩
    ⟨1, 0⟩ ⟨2, 0⟩ ⟨⟨1, 0⟩, 10, 0⟩ (by decide) (by decide) (by decide) (by decide)
    (by decide)

/-! Helper lemmas about the accept loop. -/

theorem daemonRun_cons (key : Nat) (st : CoreState) (c : Connection) (now : Nat)
    (rest : List (Connection × Nat)) :
    daemonRun key st ((c, now) :: rest) =
      ((daemonRun key (handleConn key now st c).1 rest).1,
        (handleConn key now st c).2 ::
          (daemonRun key (handleConn key now st c).1 rest).2) := rfl

theorem daemonRun_length (key : Nat) (st : CoreState)
    (cs : List (Connection × Nat)) :
    (daemonRun key st cs).2.length = cs.length := by
  induction cs generalizing st with
  | nil => rfl
  | cons c rest ih => simp [daemonRun, ih]

theorem daemonRun_blocks (key : Nat) (st : CoreState)
    (cs : List (Connection × Nat)) :
    ∀ b ∈ (daemonRun key st cs).2, ∃ now st2 c, b = (handleConn key now st2 c).2 := by
  induction cs generalizing st with
  | nil => intro b hb; cases hb
  | cons c rest ih =>
    intro b hb
    simp only [daemonRun] at hb
    rcases List.mem_cons.mp hb with h | h
    · exact ⟨c.2, st, c.1, h⟩
    · exact ih _ b h

theorem handleConn_readCount (key now : Nat) (st : CoreState) (c : Connection) :
    (handleConn key now st c).2.countP isReadEvent ≤ 1 := by
  rcases c with ⟨ca, ch, cr, cd⟩
  cases ca <;> cases ch <;> cases cr <;> cases cd <;>
    simp [handleConn, isReadEvent, List.countP_cons]

theorem pairwise_of_total {α : Type} (P : α → α → Prop) (hP : ∀ a b, P a b)
    (l : List α) : l.Pairwise P := by
  induction l with
  | nil => exact List.Pairwise.nil
  | cons x xs ih => exact List.Pairwise.cons (fun y _ => hP x y) ih

theorem tagBlocks_le {i : Nat} {bs : List (List SessionEvent)} :
    ∀ p ∈ tagBlocks i bs, i ≤ p.1 := by
  induction bs generalizing i with
  | nil => intro p hp; simp [tagBlocks] at hp
  | cons b rest ih =>
    intro p hp
    simp only [tagBlocks] at hp
    rcases List.mem_append.mp hp with h | h
    · obtain ⟨e, _, rfl⟩ := List.mem_map.mp h
      exact Nat.le_refl i
    · exact Nat.le_of_succ_le (ih p h)

theorem tagBlocks_pairwise (i : Nat) (bs : List (List SessionEvent)) :
    (tagBlocks i bs).Pairwise (fun p q => p.1 ≤ q.1) := by
  induction bs generalizing i with
  | nil => simp [tagBlocks]
  | cons b rest ih =>
    simp only [tagBlocks]
    rw [List.pairwise_append]
    refine ⟨?_, ih (i + 1), ?_⟩
    · rw [List.pairwise_map]
      exact pairwise_of_total _ (fun a b => Nat.le_refl i) b
    · intro p hp q hq
      obtain ⟨e, _, rfl⟩ := List.mem_map.mp hp
      exact Nat.le_of_succ_le (tagBlocks_le q hq)

/-- C5: protocol violation handling.  For an accepted and authenticated
connection whose single message fails to decode as a sign request, the
handler logs the decode error, writes no response, leaves the core state
untouched, and the daemon does not crash: the run over the remaining
connections is exactly the run that would have happened from the same state,
so the accept loop proceeds to the next connection. -/
theorem decode_failure_drops_connection (key now : Nat) (st : CoreState)
    (c : Connection) (e : String) (rest : List (Connection × Nat))
    (ha : c.accepted = Except.ok ()) (hh : c.handshake = Except.ok ())
    (hr : c.readBytes = Except.ok ()) (hd : c.decoded = Except.error e) :
    (handleConn key now st c).1 = st ∧
      SessionEvent.logged LogLevel.error "decoding sign message" ∈
        (handleConn key now st c).2 ∧
      (∀ resp, SessionEvent.wrote resp ∉ (handleConn key now st c).2) ∧
      daemonRun key st ((c, now) :: rest) =
        ((daemonRun key st rest).1,
          (handleConn key now st c).2 :: (daemonRun key st rest).2) := by
  have hc : handleConn key now st c = (st,
      [SessionEvent.logged LogLevel.trace "got a new connection",
       SessionEvent.readAttempt,
       SessionEvent.logged LogLevel.debug "got message from peer",
       SessionEvent.logged LogLevel.error "decoding sign message",
       SessionEvent.connClosed]) := by
    simp [handleConn, ha, hh, hr, hd]
  refine ⟨by rw [hc], by rw [hc]; simp, ?_, ?_⟩
  · intro resp
    rw [hc]
    simp
  · rw [daemonRun_cons, hc]

/-- Witness for C5 at a concrete connection whose message fails to decode. -/
theorem decode_failure_drops_connection_witness :
    (handleConn 5 0 initState ⟨Except.ok (), Except.ok (), Except.ok (),
        Except.error "bad json"⟩).1 = initState ∧
      SessionEvent.logged LogLevel.error "decoding sign message" ∈
        (handleConn 5 0 initState ⟨Except.ok (), Except.ok (), Except.ok (),
          Except.error "bad json"⟩).2 ∧
      (∀ resp, SessionEvent.wrote resp ∉
        (handleConn 5 0 initState ⟨Except.ok (), Except.ok (), Except.ok (),
          Except.error "bad json"⟩).2) ∧
      daemonRun 5 initState
          [(⟨Except.ok (), Except.ok (), Except.ok (), Except.error "bad json"⟩, 0)] =
        ((daemonRun 5 initState []).1,
          (handleConn 5 0 initState ⟨Except.ok (), Except.ok (), Except.ok (),
            Except.error "bad json"⟩).2 :: (daemonRun 5 initState []).2) :=
  decode_failure_drops_connection 5 0 initState
    ⟨Except.ok (), Except.ok (), Except.ok (), Except.error "bad json"⟩ "bad json" []
    rfl rfl rfl rfl

/-- C6: transport faults are connection-local and non-fatal.  Whether the
accept itself fails, the Noise KK handshake against the managers allow-list
fails, or the stream read fails, the handler leaves the core state
untouched, emits at least one log entry (the accept error is carried by the
trace log of the incoming result, the other two by dedicated error logs),
writes no response, and the daemon continues: the run over the remaining
connections is exactly the run from the same state. -/
theorem transport_fault_nonfatal (key now : Nat) (st : CoreState)
    (c : Connection) (e : String) (rest : List (Connection × Nat))
    (hfault : c.accepted = Except.error e ∨ c.handshake = Except.error e ∨
      c.readBytes = Except.error e) :
    (handleConn key now st c).1 = st ∧
      (∃ lv tag, SessionEvent.logged lv tag ∈ (handleConn key now st c).2) ∧
      (∀ resp, SessionEvent.wrote resp ∉ (handleConn key now st c).2) ∧
      daemonRun key st ((c, now) :: rest) =
        ((daemonRun key st rest).1,
          (handleConn key now st c).2 :: (daemonRun key st rest).2) := by
  cases hca : c.accepted with
  | error ea =>
    have hc : handleConn key now st c =
        (st, [SessionEvent.logged LogLevel.trace "got a new connection"]) := by
      simp [handleConn, hca]
    refine ⟨by rw [hc], ⟨LogLevel.trace, "got a new connection", by rw [hc]; simp⟩,
      fun resp => by rw [hc]; simp, by rw [daemonRun_cons, hc]⟩
  | ok ua =>
    cases hch : c.handshake with
    | error eh =>
      have hc : handleConn key now st c =
          (st, [SessionEvent.logged LogLevel.trace "got a new connection",
            SessionEvent.logged LogLevel.error "error during handshake",
            SessionEvent.connClosed]) := by
        simp [handleConn, hca, hch]
      refine ⟨by rw [hc], ⟨LogLevel.error, "error during handshake", by rw [hc]; simp⟩,
        fun resp => by rw [hc]; simp, by rw [daemonRun_cons, hc]⟩
    | ok uh =>
      cases hcr : c.readBytes with
      | error er =>
        have hc : handleConn key now st c =
            (st, [SessionEvent.logged LogLevel.trace "got a new connection",
              SessionEvent.readAttempt,
              SessionEvent.logged LogLevel.error "error reading from stream",
              SessionEvent.connClosed]) := by
          simp [handleConn, hca, hch, hcr]
        refine ⟨by rw [hc], ⟨LogLevel.error, "error reading from stream", by rw [hc]; simp⟩,
          fun resp => by rw [hc]; simp, by rw [daemonRun_cons, hc]⟩
      | ok ur =>
        rcases hfault with h | h | h
        · rw [hca] at h
          cases h
        · rw [hch] at h
          cases h
        · rw [hcr] at h
          cases h

/-- Witness for C6 at a concrete connection whose handshake fails. -/
theorem transport_fault_nonfatal_witness :
    (handleConn 5 0 initState ⟨Except.ok (), Except.error "bad peer", Except.ok (),
        Except.error "unread"⟩).1 = initState ∧
      (∃ lv tag, SessionEvent.logged lv tag ∈
        (handleConn 5 0 initState ⟨Except.ok (), Except.error "bad peer", Except.ok (),
          Except.error "unread"⟩).2) ∧
      (∀ resp, SessionEvent.wrote resp ∉
        (handleConn 5 0 initState ⟨Except.ok (), Except.error "bad peer", Except.ok (),
          Except.error "unread"⟩).2) ∧
      daemonRun 5 initState
          [(⟨Except.ok (), Except.error "bad peer", Except.ok (), Except.error "unread"⟩, 0)] =
        ((daemonRun 5 initState []).1,
          (handleConn 5 0 initState ⟨Except.ok (), Except.error "bad peer", Except.ok (),
            Except.error "unread"⟩).2 :: (daemonRun 5 initState []).2) :=
  transport_fault_nonfatal 5 0 initState
    ⟨Except.ok (), Except.error "bad peer", Except.ok (), Except.error "unread"⟩
    "bad peer" [] (Or.inr (Or.inl rfl))

/-- C7: exactly one response per decoded request.  For a connection whose
message decodes successfully, the event block is exactly: the trace log, the
single read, the debug and trace logs, one written response (the decision of
the core on this request: a signature if approved, the rejection reason if
rejected, by the type of `Response`), and then the connection closing; in
particular the count of response writes is one and the write precedes the
close. -/
theorem one_response_per_request (key now : Nat) (st : CoreState)
    (c : Connection) (req : SignRequest)
    (ha : c.accepted = Except.ok ()) (hh : c.handshake = Except.ok ())
    (hr : c.readBytes = Except.ok ()) (hd : c.decoded = Except.ok req) :
    (handleConn key now st c).2 =
      [SessionEvent.logged LogLevel.trace "got a new connection",
       SessionEvent.readAttempt,
       SessionEvent.logged LogLevel.debug "got message from peer",
       SessionEvent.logged LogLevel.trace "decoded",
       SessionEvent.wrote (processSign key now st req).1,
       SessionEvent.connClosed] ∧
      (handleConn key now st c).2.countP isWriteEvent = 1 := by
  have hc : handleConn key now st c = ((processSign key now st req).2,
      [SessionEvent.logged LogLevel.trace "got a new connection",
       SessionEvent.readAttempt,
       SessionEvent.logged LogLevel.debug "got message from peer",
       SessionEvent.logged LogLevel.trace "decoded",
       SessionEvent.wrote (processSign key now st req).1,
       SessionEvent.connClosed]) := by
    simp [handleConn, ha, hh, hr, hd]
  refine ⟨by rw [hc], ?_⟩
  rw [hc]
  simp [isWriteEvent, List.countP_cons]

/-- Witness for C7 at a concrete decoded request. -/
theorem one_response_per_request_witness :
    (handleConn 5 0 initState ⟨Except.ok (), Except.ok (), Except.ok (),
        Except.ok ⟨10, [⟨1, 0⟩]⟩⟩).2 =
      [SessionEvent.logged LogLevel.trace "got a new connection",
       SessionEvent.readAttempt,
       SessionEvent.logged LogLevel.debug "got message from peer",
       SessionEvent.logged LogLevel.trace "decoded",
       SessionEvent.wrote (processSign 5 0 initState ⟨10, [⟨1, 0⟩]⟩).1,
       SessionEvent.connClosed] ∧
      (handleConn 5 0 initState ⟨Except.ok (), Except.ok (), Except.ok (),
        Except.ok ⟨10, [⟨1, 0⟩]⟩⟩).2.countP isWriteEvent = 1 :=
  one_response_per_request 5 0 initState
    ⟨Except.ok (), Except.ok (), Except.ok (), Except.ok ⟨10, [⟨1, 0⟩]⟩⟩
    ⟨10, [⟨1, 0⟩]⟩ rfl rfl rfl rfl

/-- C8: strictly sequential sessions.  The flat trace of a daemon run, with
every event tagged by the index of the connection it belongs to, is ordered
by connection index: all events of one connection precede every event of any
later connection, so connections are handled one at a time, each fully
processed before the next, and no two requests are processed concurrently.
There is one event block per incoming connection, and each block performs at
most one message read. -/
theorem sequential_sessions (key : Nat) (st : CoreState)
    (cs : List (Connection × Nat)) :
    (daemonTrace key st cs).Pairwise (fun p q => p.1 ≤ q.1) ∧
      (daemonRun key st cs).2.length = cs.length ∧
      ∀ b ∈ (daemonRun key st cs).2, b.countP isReadEvent ≤ 1 := by
  refine ⟨tagBlocks_pairwise 0 (daemonRun key st cs).2, daemonRun_length key st cs, ?_⟩
  intro b hb
  obtain ⟨now, st2, c, rfl⟩ := daemonRun_blocks key st cs b hb
  exact handleConn_readCount key now st2 c

/-- C10: a bind failure at startup is fatal.  With a failed bind,
`daemon_main` logs the bind error and exits the whole process with code 1,
handling no connection at all; by contrast, with a successful bind the loop
runs and produces one event block per connection, however many of those
connections fault. -/
theorem bind_failure_fatal (key : Nat) (st : CoreState)
    (cs : List (Connection × Nat)) (e : String) :
    daemon_main key (Except.error e) st cs =
        DaemonOutcome.exited 1 [SessionEvent.logged LogLevel.error "error binding"] ∧
      ∀ u, daemon_main key (Except.ok u) st cs =
          DaemonOutcome.ran (daemonRun key st cs).1 (daemonRun key st cs).2 ∧
        (daemonRun key st cs).2.length = cs.length :=
  ⟨rfl, fun _ => ⟨rfl, daemonRun_length key st cs⟩⟩

/-- C9: parse_args never inspects the flag name.  A length-1 argument vector
yields no configuration path; a length-3 vector yields the third argument as
the path whatever the second argument is; every other length prints the two
error lines and terminates the process with exit code 1. -/
theorem parse_args_spec :
    (∀ a, parse_args [a] = ParseResult.noConf) ∧
      (∀ a b p, parse_args [a, b, p] = ParseResult.conf p) ∧
      (∀ args : List String, args.length ≠ 1 → args.length ≠ 3 →
        parse_args args = ParseResult.exited 1 2) := by
  refine ⟨fun a => rfl, fun a b p => rfl, fun args h1 h3 => ?_⟩
  unfold parse_args
  rw [if_neg h1, if_pos h3]

/-- Witness for C9: with a flag that is not `--conf`, the third argument is
still returned as the configuration path; and the empty vector exits 1. -/
theorem parse_args_spec_witness :
    parse_args ["cosignerd", "--badflag", "cfg"] = ParseResult.conf "cfg" ∧
      parse_args [] = ParseResult.exited 1 2 :=
  ⟨parse_args_spec.2.1 "cosignerd" "--badflag" "cfg",
    parse_args_spec.2.2 [] (by decide) (by decide)⟩

end Cosignerd
